import Mathlib

/-!
Shallow embedding of the rate-limiter decision engine of iyanubruce/rate-limiter.

Sources embedded here:
- the token-bucket Lua script (token-bucket.lua, also inlined in
  src/services/redis.ts, RedisClient.tokenBucket),
- the sliding-window and leaky-bucket Lua scripts (sliding-window.lua,
  leaky-bucket.lua, also inlined in redis.ts),
- the fixed-window rate-limit Lua script (rate-limit.lua, also inlined in
  RedisClient.defineCommands),
- the strategy dispatch of RedisClient.checkRateLimit,
- the script runner RedisClient.evalWithFallback,
- the quota inspector RedisClient.getQuotaStatus.

Modelling conventions: Lua numbers (IEEE doubles in the store) are modelled as
rationals, timestamps in milliseconds as integers.  A bucket hash is a record
of optional fields, one per hash field the scripts touch; an absent field is
none.  The sliding-window ordered set is a finite set of integer scores
(member and score coincide in the script).  Store round trips are recorded as
traces where a claim speaks about store interaction.
-/

namespace RateLimiter

/-- Reply envelope of the three checkRateLimit algorithms: the decoded
reply tuple allowed / remaining / resetAt. -/
structure Envelope where
  allowed : Bool
  remaining : ℤ
  resetAt : ℚ
  deriving DecidableEq

/-- Token-bucket record stored at the bucket key: hash fields tokens and
last_refill.  The script reads and writes the two fields together, so the
stored state is either absent or a full pair. -/
structure TBState where
  tokens : ℚ
  last_refill : ℤ
  deriving DecidableEq

/-- Refill phase of the token-bucket Lua script: an absent record initializes
to (limit, now); otherwise the bucket gains
floor((now - last_refill) / 1000) * (limit / window) tokens capped at limit,
and last_refill moves to now even when the refill quantity is zero. -/
def tbRefill (limit window : ℚ) (now : ℤ) (st : Option TBState) : TBState :=
  match st with
  | none => ⟨limit, now⟩
  | some b =>
      let time_passed : ℤ := now - b.last_refill
      let tokens_to_add : ℚ := (⌊(time_passed : ℚ) / 1000⌋ : ℚ) * (limit / window)
      ⟨min limit (b.tokens + tokens_to_add), now⟩

/-- One execution of the token-bucket Lua script (token-bucket.lua):
refill, then admit when tokens >= 1 by consuming one token, write the record
back, and return (allowed, floor(tokens), last_refill + window * 1000). -/
def tokenBucketStep (limit window : ℚ) (now : ℤ) (st : Option TBState) :
    TBState × Envelope :=
  let s := tbRefill limit window now st
  if 1 ≤ s.tokens then
    (⟨s.tokens - 1, s.last_refill⟩,
     ⟨true, ⌊s.tokens - 1⌋, (s.last_refill : ℚ) + window * 1000⟩)
  else
    (s, ⟨false, ⌊s.tokens⌋, (s.last_refill : ℚ) + window * 1000⟩)

/-- Iterated token-bucket calls, collecting the replies in order. -/
def tokenBucketRun (limit window : ℚ) (calls : List ℤ) (st : Option TBState) :
    Option TBState × List Envelope :=
  match calls with
  | [] => (st, [])
  | now :: rest =>
      let r := tokenBucketStep limit window now st
      let f := tokenBucketRun limit window rest (some r.1)
      (f.1, r.2 :: f.2)

/-- Bucket hash record: one optional entry per hash field the engine ever
writes (tokens / last_refill by the token-bucket script, water / last_leak by
the leaky-bucket script). -/
structure HashRecord where
  tokens : Option ℚ := none
  last_refill : Option ℤ := none
  water : Option ℚ := none
  last_leak : Option ℤ := none
  deriving DecidableEq

/-- Empty bucket hash: no field present. -/
def HashRecord.empty : HashRecord := ⟨none, none, none, none⟩

/-- Leak phase of the leaky-bucket Lua script: reads water / last_leak with
defaults 0 / now and leaks (now - last_leak) / 1000 * leak_rate units,
saturating at zero. -/
def lbLeakedWater (leak_rate : ℚ) (now : ℤ) (r : HashRecord) : ℚ :=
  let water0 : ℚ := r.water.getD 0
  let last_leak : ℤ := r.last_leak.getD now
  let time_passed : ℚ := ((now - last_leak : ℤ) : ℚ) / 1000
  max 0 (water0 - time_passed * leak_rate)

/-- One execution of the leaky-bucket Lua script (leaky-bucket.lua):
leak, then admit when water < capacity by adding one unit, write water and
last_leak = now, and return
(allowed, floor(capacity - water), now + (water / leak_rate) * 1000). -/
def leakyBucketStep (capacity leak_rate : ℚ) (now : ℤ) (r : HashRecord) :
    HashRecord × Envelope :=
  let water1 := lbLeakedWater leak_rate now r
  if water1 < capacity then
    ({ r with water := some (water1 + 1), last_leak := some now },
     ⟨true, ⌊capacity - (water1 + 1)⌋, (now : ℚ) + ((water1 + 1) / leak_rate) * 1000⟩)
  else
    ({ r with water := some water1, last_leak := some now },
     ⟨false, ⌊capacity - water1⌋, (now : ℚ) + (water1 / leak_rate) * 1000⟩)

/-- Iterated leaky-bucket calls, returning the final stored record. -/
def leakyBucketRun (capacity leak_rate : ℚ) (calls : List ℤ) (r : HashRecord) :
    HashRecord :=
  calls.foldl (fun acc now => (leakyBucketStep capacity leak_rate now acc).1) r

/-- Eviction step of the sliding-window Lua script: ZREMRANGEBYSCORE key 0
window_start removes exactly the elements with score in [0, window_start]. -/
def swEvict (window_start : ℤ) (S : Finset ℤ) : Finset ℤ :=
  S.filter (fun t => ¬ (0 ≤ t ∧ t ≤ window_start))

/-- One execution of the sliding-window Lua script (sliding-window.lua):
evicts scores in [0, window_start], reads the cardinality, inserts the
timestamp now (member = score = now) when the cardinality is below limit,
and returns (allowed, max 0 (limit - current), now + window_ms) where current
counts the insertion. -/
def slidingWindowStep (limit window_start now window_ms : ℤ) (S : Finset ℤ) :
    Finset ℤ × Envelope :=
  let S1 := swEvict window_start S
  let current : ℤ := S1.card
  if current < limit then
    (insert now S1,
     ⟨true, max 0 (limit - (current + 1)), ((now + window_ms : ℤ) : ℚ)⟩)
  else
    (S1, ⟨false, max 0 (limit - current), ((now + window_ms : ℤ) : ℚ)⟩)

/-- Fixed-window counter state: the integer counter at the bucket key and the
TTL in milliseconds as PTTL would report it.  TTL decay between calls is not
modelled; the claims settled here never read the PTTL branch on a decayed
value. -/
structure FWState where
  count : ℕ
  pttl : ℤ
  deriving DecidableEq

/-- Largest double-precision safe integer, as the rate-limit Lua script
computes it: (2 ^ 53) - 1. -/
def MAX_SAFE_INTEGER : ℤ := 2 ^ 53 - 1

/-- One execution of the fixed-window rate-limit Lua script (rate-limit.lua,
also inlined in RedisClient.defineCommands): INCR, then either arm the TTL to
the base window (first call, or continueExceeding while over max), or arm it
to min(timeWindow * 2 ^ (current - max - 1), 2 ^ 53 - 1) (exponentialBackoff
while over max), or read the current TTL; returns (current, timeWindow). -/
def rateLimitStep (timeWindow max : ℤ) (continueExceeding exponentialBackoff : Bool)
    (st : FWState) : FWState × (ℤ × ℤ) :=
  let current : ℤ := (st.count : ℤ) + 1
  if current = 1 ∨ (continueExceeding = true ∧ current > max) then
    (⟨st.count + 1, timeWindow⟩, (current, timeWindow))
  else if exponentialBackoff = true ∧ current > max then
    let backoffExponent : ℕ := (current - max - 1).toNat
    let tw : ℤ := min (timeWindow * 2 ^ backoffExponent) MAX_SAFE_INTEGER
    (⟨st.count + 1, tw⟩, (current, tw))
  else
    (⟨st.count + 1, st.pttl⟩, (current, st.pttl))

/-- Iterated fixed-window calls, collecting the (current, timeWindow) replies. -/
def rateLimitRun (timeWindow max : ℤ) (continueExceeding exponentialBackoff : Bool) :
    ℕ → FWState → FWState × List (ℤ × ℤ)
  | 0, st => (st, [])
  | n + 1, st =>
      let r := rateLimitStep timeWindow max continueExceeding exponentialBackoff st
      let f := rateLimitRun timeWindow max continueExceeding exponentialBackoff n r.1
      (f.1, r.2 :: f.2)

/-- Per-key bucket state seen by the decision facade: the token-bucket record,
the sliding-window ordered set, and the leaky-bucket hash record. -/
structure BucketState where
  tb : Option TBState
  sw : Finset ℤ
  lb : HashRecord
  deriving DecidableEq

/-- Empty per-key state: no record stored under the key. -/
def BucketState.empty : BucketState := ⟨none, ∅, HashRecord.empty⟩

/-- RedisClient.checkRateLimit: captures now once, dispatches on the strategy
string to the matching algorithm script, decodes the reply tuple into the
envelope, and throws Error("Unknown strategy: ...") on any other strategy.
The third component records which store script was invoked; an unknown
strategy performs no store interaction. -/
def checkRateLimit (strategy : String) (limit windowSeconds : ℤ) (now : ℤ)
    (st : BucketState) : Except String Envelope × BucketState × List String :=
  if strategy = "token_bucket" then
    let r := tokenBucketStep (limit : ℚ) (windowSeconds : ℚ) now st.tb
    (Except.ok r.2, { st with tb := some r.1 }, ["tokenBucket"])
  else if strategy = "sliding_window" then
    let windowMs : ℤ := windowSeconds * 1000
    let windowStart : ℤ := now - windowMs
    let r := slidingWindowStep limit windowStart now windowMs st.sw
    (Except.ok r.2, { st with sw := r.1 }, ["slidingWindow"])
  else if strategy = "leaky_bucket" then
    let leakRate : ℚ := (limit : ℚ) / (windowSeconds : ℚ)
    let r := leakyBucketStep (limit : ℚ) leakRate now st.lb
    (Except.ok r.2, { st with lb := r.1 }, ["leakyBucket"])
  else
    (Except.error ("Unknown strategy: " ++ strategy), st, [])

/-- Iterated facade calls at the given timestamps, collecting the outcomes. -/
def checkRateLimitRun (strategy : String) (limit windowSeconds : ℤ)
    (calls : List ℤ) (st : BucketState) :
    BucketState × List (Except String Envelope) :=
  match calls with
  | [] => (st, [])
  | now :: rest =>
      let r := checkRateLimit strategy limit windowSeconds now st
      let f := checkRateLimitRun strategy limit windowSeconds rest r.2.1
      (f.1, r.1 :: f.2)

/-- Store operations the script runner can issue, for tracing round trips. -/
inductive StoreOp where
  | evalsha : String → StoreOp
  | scriptLoad : String → StoreOp
  | evalFull : String → StoreOp
  deriving DecidableEq

/-- Outcome of one EVALSHA round trip: a reply value, the NOSCRIPT error for
an unknown digest, or any other store error with its message. -/
inductive EvalOutcome where
  | ok : ℤ → EvalOutcome
  | noscript : EvalOutcome
  | err : String → EvalOutcome
  deriving DecidableEq

/-- Script cache of the store: the digest to source pairs currently loaded. -/
structure ScriptStore where
  cache : List (String × String)
  deriving DecidableEq

/-- Store semantics of EVALSHA: execute the source cached under the digest, or
reply NOSCRIPT when the digest is unknown.  Script execution itself is the
abstract function exec, which yields a reply value or an error message. -/
def storeEvalsha (exec : String → Except String ℤ) (store : ScriptStore)
    (sha : String) : EvalOutcome :=
  match store.cache.lookup sha with
  | some src =>
      match exec src with
      | Except.ok v => EvalOutcome.ok v
      | Except.error m => EvalOutcome.err m
  | none => EvalOutcome.noscript

/-- Process-local digest table of the runner (RedisClient.scriptShas). -/
structure RunnerState where
  scriptShas : List (String × String)
  deriving DecidableEq

/-- Result of one runner call as the caller observes it.  The noscriptRes
constructor marks the NOSCRIPT store condition escaping to the caller;
missingScript marks the "Lua script missing" error of the runner itself. -/
inductive RunResult where
  | ok : ℤ → RunResult
  | storeErr : String → RunResult
  | noscriptRes : RunResult
  | missingScript : String → RunResult
  deriving DecidableEq

/-- Embedding of a raw execution outcome into the runner result: values pass
through, execution errors surface unchanged. -/
def embedExec : Except String ℤ → RunResult
  | Except.ok v => RunResult.ok v
  | Except.error m => RunResult.storeErr m

/-- Check of RedisClient.evalWithFallback on a caught error message:
error.message includes "NOSCRIPT". -/
def containsNOSCRIPT (s : String) : Bool :=
  (s.splitOn "NOSCRIPT").length != 1

/-- Recovery path of evalWithFallback: SCRIPT LOAD the source, record the new
digest in the table, and retry EVALSHA with the new digest exactly once; the
retry is not guarded, so whatever it yields is the result. -/
def reloadAndRetry (digestOf : String → String) (exec : String → Except String ℤ)
    (src name firstSha : String) (rs : RunnerState) (store : ScriptStore) :
    RunResult × RunnerState × ScriptStore × List StoreOp :=
  let newSha := digestOf src
  let store1 : ScriptStore := ⟨(newSha, src) :: store.cache⟩
  let rs1 : RunnerState := ⟨(name, newSha) :: rs.scriptShas⟩
  let trace := [StoreOp.evalsha firstSha, StoreOp.scriptLoad src, StoreOp.evalsha newSha]
  match storeEvalsha exec store1 newSha with
  | EvalOutcome.ok v => (RunResult.ok v, rs1, store1, trace)
  | EvalOutcome.noscript => (RunResult.noscriptRes, rs1, store1, trace)
  | EvalOutcome.err m => (RunResult.storeErr m, rs1, store1, trace)

/-- RedisClient.evalWithFallback: evaluate by cached digest when one exists;
on an error whose message includes NOSCRIPT, reload the source and retry by
digest once; with no cached digest, evaluate the full source directly (the
store caches it as a side effect); surface every other error unchanged.  The
code reads the source through a non-null assertion in the recovery path; a
missing source is modelled as the missingScript failure, unreachable when the
digest table only holds digests of registered sources. -/
def evalWithFallback (digestOf : String → String) (exec : String → Except String ℤ)
    (sources : List (String × String)) (rs : RunnerState) (store : ScriptStore)
    (name : String) : RunResult × RunnerState × ScriptStore × List StoreOp :=
  match rs.scriptShas.lookup name with
  | some sha =>
      match storeEvalsha exec store sha with
      | EvalOutcome.ok v => (RunResult.ok v, rs, store, [StoreOp.evalsha sha])
      | EvalOutcome.noscript =>
          match sources.lookup name with
          | some src => reloadAndRetry digestOf exec src name sha rs store
          | none => (RunResult.missingScript name, rs, store, [StoreOp.evalsha sha])
      | EvalOutcome.err m =>
          if containsNOSCRIPT m then
            match sources.lookup name with
            | some src => reloadAndRetry digestOf exec src name sha rs store
            | none => (RunResult.missingScript name, rs, store, [StoreOp.evalsha sha])
          else
            (RunResult.storeErr m, rs, store, [StoreOp.evalsha sha])
  | none =>
      match sources.lookup name with
      | none => (RunResult.missingScript name, rs, store, [])
      | some src =>
          (embedExec (exec src), rs, ⟨(digestOf src, src) :: store.cache⟩,
           [StoreOp.evalFull src])

/-- Quota report of the inspector. -/
structure QuotaStatus where
  remaining : ℤ
  total : ℤ
  deriving DecidableEq

/-- RedisClient.getQuotaStatus: for sliding_window report the ZCARD of the
ordered set twice; for any other strategy read the hash and parse its tokens
field, an absent field parsing as 0, reporting the floor twice; swallow any
store error into zeros.  The two store round trips are passed in as their
outcomes, an Except error standing for a failed operation. -/
def getQuotaStatus (strategy : String) (zcardReply : Except String ℕ)
    (hgetallReply : Except String HashRecord) : QuotaStatus :=
  if strategy = "sliding_window" then
    match zcardReply with
    | Except.ok n => ⟨(n : ℤ), (n : ℤ)⟩
    | Except.error _ => ⟨0, 0⟩
  else
    match hgetallReply with
    | Except.ok r => ⟨⌊r.tokens.getD 0⌋, ⌊r.tokens.getD 0⌋⟩
    | Except.error _ => ⟨0, 0⟩

/-! Helper lemmas about the stored token-bucket and leaky-bucket quantities,
shared by the invariant and non-negativity theorems below. -/

theorem tbRefill_le_limit (limit window : ℚ) (now : ℤ) (st : Option TBState) :
    (tbRefill limit window now st).tokens ≤ limit := by
  rcases st with _ | b
  · exact le_refl _
  · exact min_le_left _ _

theorem tbRefill_nonneg (limit window : ℚ) (now : ℤ) (st : Option TBState)
    (hl : 0 ≤ limit) (hw : 0 ≤ window)
    (hst : ∀ b, st = some b → 0 ≤ b.tokens ∧ b.last_refill ≤ now) :
    0 ≤ (tbRefill limit window now st).tokens := by
  rcases st with _ | b
  · exact hl
  · obtain ⟨ht, hlr⟩ := hst b rfl
    have htp : (0 : ℚ) ≤ ((now - b.last_refill : ℤ) : ℚ) / 1000 := by
      apply div_nonneg _ (by norm_num)
      exact_mod_cast Int.sub_nonneg.mpr hlr
    have hadd : (0 : ℚ) ≤ (⌊((now - b.last_refill : ℤ) : ℚ) / 1000⌋ : ℚ) * (limit / window) := by
      apply mul_nonneg
      · exact_mod_cast Int.floor_nonneg.mpr htp
      · exact div_nonneg hl hw
    simp only [tbRefill]
    exact le_min hl (by linarith)

theorem tokenBucket_stored_nonneg (limit window : ℚ) (now : ℤ) (st : Option TBState)
    (hl : 0 ≤ limit) (hw : 0 ≤ window)
    (hst : ∀ b, st = some b → 0 ≤ b.tokens ∧ b.last_refill ≤ now) :
    0 ≤ (tokenBucketStep limit window now st).1.tokens := by
  have h := tbRefill_nonneg limit window now st hl hw hst
  simp only [tokenBucketStep]
  split_ifs with h1
  · show (0 : ℚ) ≤ _ - 1
    linarith
  · exact h

theorem tokenBucket_stored_le (limit window : ℚ) (now : ℤ) (st : Option TBState) :
    (tokenBucketStep limit window now st).1.tokens ≤ limit := by
  have h := tbRefill_le_limit limit window now st
  simp only [tokenBucketStep]
  split_ifs with h1
  · show _ - 1 ≤ limit
    linarith
  · exact h

theorem tokenBucket_remaining_eq (limit window : ℚ) (now : ℤ) (st : Option TBState) :
    (tokenBucketStep limit window now st).2.remaining =
      ⌊(tokenBucketStep limit window now st).1.tokens⌋ := by
  simp only [tokenBucketStep]
  split_ifs <;> rfl

theorem lbLeakedWater_nonneg (leak_rate : ℚ) (now : ℤ) (r : HashRecord) :
    0 ≤ lbLeakedWater leak_rate now r :=
  le_max_left 0 _

theorem lbLeakedWater_le (leak_rate : ℚ) (now : ℤ) (r : HashRecord)
    (hlr : 0 ≤ leak_rate) (hll : r.last_leak.getD now ≤ now)
    (h0 : 0 ≤ r.water.getD 0) :
    lbLeakedWater leak_rate now r ≤ r.water.getD 0 := by
  have htp : (0 : ℚ) ≤ ((now - r.last_leak.getD now : ℤ) : ℚ) / 1000 := by
    apply div_nonneg _ (by norm_num)
    exact_mod_cast Int.sub_nonneg.mpr hll
  have hleaked : (0 : ℚ) ≤ ((now - r.last_leak.getD now : ℤ) : ℚ) / 1000 * leak_rate :=
    mul_nonneg htp hlr
  simp only [lbLeakedWater]
  exact max_le h0 (by linarith)

theorem leakyBucket_stored_water (capacity leak_rate : ℚ) (now : ℤ) (r : HashRecord) :
    (leakyBucketStep capacity leak_rate now r).1.water =
      some (if lbLeakedWater leak_rate now r < capacity
            then lbLeakedWater leak_rate now r + 1
            else lbLeakedWater leak_rate now r) := by
  simp only [leakyBucketStep]
  split_ifs <;> rfl

theorem leakyBucket_water_nonneg (capacity leak_rate : ℚ) (now : ℤ) (r : HashRecord) :
    0 ≤ (leakyBucketStep capacity leak_rate now r).1.water.getD 0 := by
  rw [leakyBucket_stored_water]
  have h := lbLeakedWater_nonneg leak_rate now r
  split_ifs with h1 <;> simp only [Option.getD_some] <;> linarith

theorem leakyBucket_water_lt (capacity leak_rate : ℚ) (now : ℤ) (r : HashRecord)
    (hlr : 0 ≤ leak_rate) (hll : r.last_leak.getD now ≤ now)
    (h0 : 0 ≤ r.water.getD 0) (hub : r.water.getD 0 < capacity + 1) :
    (leakyBucketStep capacity leak_rate now r).1.water.getD 0 < capacity + 1 := by
  rw [leakyBucket_stored_water]
  have h := lbLeakedWater_le leak_rate now r hlr hll h0
  split_ifs with h1 <;> simp only [Option.getD_some] <;> linarith

theorem leakyBucket_remaining_eq (capacity leak_rate : ℚ) (now : ℤ) (r : HashRecord) :
    (leakyBucketStep capacity leak_rate now r).2.remaining =
      ⌊capacity - (leakyBucketStep capacity leak_rate now r).1.water.getD 0⌋ := by
  simp only [leakyBucketStep]
  split_ifs <;> rfl

/-- C1 (amended): after every decision with positive parameters and a call
time not earlier than the stored clock field, the stored token-bucket tokens
value lies in [0, limit]; the stored leaky-bucket water value satisfies
0 <= water < capacity + 1, and that bound is preserved from any prior state
satisfying it.  The original upper bound water <= capacity does not hold, see
the counterexample. -/
theorem C1_capacity_bounds :
    (∀ (limit window : ℚ) (now : ℤ) (st : Option TBState), 0 < limit → 0 < window →
        (∀ b, st = some b → 0 ≤ b.tokens ∧ b.last_refill ≤ now) →
        0 ≤ (tokenBucketStep limit window now st).1.tokens ∧
        (tokenBucketStep limit window now st).1.tokens ≤ limit)
  ∧ (∀ (capacity leak_rate : ℚ) (now : ℤ) (r : HashRecord), 0 < capacity → 0 < leak_rate →
        0 ≤ r.water.getD 0 → r.water.getD 0 < capacity + 1 → r.last_leak.getD now ≤ now →
        0 ≤ (leakyBucketStep capacity leak_rate now r).1.water.getD 0 ∧
        (leakyBucketStep capacity leak_rate now r).1.water.getD 0 < capacity + 1) := by
  constructor
  · intro limit window now st hl hw hst
    exact ⟨tokenBucket_stored_nonneg limit window now st hl.le hw.le hst,
           tokenBucket_stored_le limit window now st⟩
  · intro capacity leak_rate now r hc hlr h0 hub hll
    exact ⟨leakyBucket_water_nonneg capacity leak_rate now r,
           leakyBucket_water_lt capacity leak_rate now r hlr.le hll h0 hub⟩

/-- Witness for C1_capacity_bounds at concrete inputs. -/
theorem C1_capacity_bounds_witness :
    (0 ≤ (tokenBucketStep 10 10 500 (some ⟨3, 0⟩)).1.tokens ∧
     (tokenBucketStep 10 10 500 (some ⟨3, 0⟩)).1.tokens ≤ 10) ∧
    (0 ≤ (leakyBucketStep 5 1 500 ⟨none, none, some 5, some 0⟩).1.water.getD 0 ∧
     (leakyBucketStep 5 1 500 ⟨none, none, some 5, some 0⟩).1.water.getD 0 < 5 + 1) :=
  ⟨C1_capacity_bounds.1 10 10 500 (some ⟨3, 0⟩) (by norm_num) (by norm_num)
      (by intro b hb; cases hb; exact ⟨by norm_num, by norm_num⟩),
   C1_capacity_bounds.2 5 1 500 ⟨none, none, some 5, some 0⟩ (by norm_num) (by norm_num)
      (by norm_num : (0 : ℚ) ≤ 5) (by norm_num : (5 : ℚ) < 5 + 1)
      (by norm_num : (0 : ℤ) ≤ 500)⟩

/-! Concrete evaluation of the leaky-bucket facade trace used by the C1 and
C2 counterexamples: limit = capacity = 5, windowSeconds = 5, so the leak rate
is one unit per second.  Five calls at t = 0 fill the bucket to water = 5;
one more call at t = 500 leaks half a unit and is admitted. -/

theorem leakyTrace_five :
    checkRateLimitRun "leaky_bucket" 5 5 [0, 0, 0, 0, 0] BucketState.empty =
      (⟨none, ∅, ⟨none, none, some 5, some 0⟩⟩,
       [Except.ok ⟨true, 4, 1000⟩, Except.ok ⟨true, 3, 2000⟩, Except.ok ⟨true, 2, 3000⟩,
        Except.ok ⟨true, 1, 4000⟩, Except.ok ⟨true, 0, 5000⟩]) := by
  have e1 : checkRateLimit "leaky_bucket" 5 5 0 BucketState.empty =
      (Except.ok ⟨true, 4, 1000⟩, ⟨none, ∅, ⟨none, none, some 1, some 0⟩⟩, ["leakyBucket"]) := by
    norm_num [checkRateLimit, leakyBucketStep, lbLeakedWater, BucketState.empty, HashRecord.empty,
      (show "leaky_bucket" ≠ "token_bucket" by decide),
      (show "leaky_bucket" ≠ "sliding_window" by decide)]
  have e2 : checkRateLimit "leaky_bucket" 5 5 0 ⟨none, ∅, ⟨none, none, some 1, some 0⟩⟩ =
      (Except.ok ⟨true, 3, 2000⟩, ⟨none, ∅, ⟨none, none, some 2, some 0⟩⟩, ["leakyBucket"]) := by
    norm_num [checkRateLimit, leakyBucketStep, lbLeakedWater,
      (show "leaky_bucket" ≠ "token_bucket" by decide),
      (show "leaky_bucket" ≠ "sliding_window" by decide)]
  have e3 : checkRateLimit "leaky_bucket" 5 5 0 ⟨none, ∅, ⟨none, none, some 2, some 0⟩⟩ =
      (Except.ok ⟨true, 2, 3000⟩, ⟨none, ∅, ⟨none, none, some 3, some 0⟩⟩, ["leakyBucket"]) := by
    norm_num [checkRateLimit, leakyBucketStep, lbLeakedWater,
      (show "leaky_bucket" ≠ "token_bucket" by decide),
      (show "leaky_bucket" ≠ "sliding_window" by decide)]
  have e4 : checkRateLimit "leaky_bucket" 5 5 0 ⟨none, ∅, ⟨none, none, some 3, some 0⟩⟩ =
      (Except.ok ⟨true, 1, 4000⟩, ⟨none, ∅, ⟨none, none, some 4, some 0⟩⟩, ["leakyBucket"]) := by
    norm_num [checkRateLimit, leakyBucketStep, lbLeakedWater,
      (show "leaky_bucket" ≠ "token_bucket" by decide),
      (show "leaky_bucket" ≠ "sliding_window" by decide)]
  have e5 : checkRateLimit "leaky_bucket" 5 5 0 ⟨none, ∅, ⟨none, none, some 4, some 0⟩⟩ =
      (Except.ok ⟨true, 0, 5000⟩, ⟨none, ∅, ⟨none, none, some 5, some 0⟩⟩, ["leakyBucket"]) := by
    norm_num [checkRateLimit, leakyBucketStep, lbLeakedWater,
      (show "leaky_bucket" ≠ "token_bucket" by decide),
      (show "leaky_bucket" ≠ "sliding_window" by decide)]
  simp [checkRateLimitRun, e1, e2, e3, e4, e5]

theorem leakyTrace_overflow :
    checkRateLimit "leaky_bucket" 5 5 500 ⟨none, ∅, ⟨none, none, some 5, some 0⟩⟩ =
      (Except.ok ⟨true, -1, 6000⟩, ⟨none, ∅, ⟨none, none, some (11 / 2), some 500⟩⟩,
       ["leakyBucket"]) := by
  norm_num [checkRateLimit, leakyBucketStep, lbLeakedWater,
    (show "leaky_bucket" ≠ "token_bucket" by decide),
    (show "leaky_bucket" ≠ "sliding_window" by decide)]

theorem checkRateLimitRun_append (strategy : String) (limit windowSeconds : ℤ)
    (xs ys : List ℤ) (st : BucketState) :
    checkRateLimitRun strategy limit windowSeconds (xs ++ ys) st =
      ((checkRateLimitRun strategy limit windowSeconds ys
          (checkRateLimitRun strategy limit windowSeconds xs st).1).1,
       (checkRateLimitRun strategy limit windowSeconds xs st).2 ++
        (checkRateLimitRun strategy limit windowSeconds ys
          (checkRateLimitRun strategy limit windowSeconds xs st).1).2) := by
  induction xs generalizing st with
  | nil => simp [checkRateLimitRun]
  | cons c cs ih => simp [checkRateLimitRun, ih]

/-- Counterexample to C1 as stated: with capacity = limit = 5,
windowSeconds = 5 (leak rate one unit per second), five admitted calls at
t = 0 reach the stored state water = 5, last_leak = 0, which satisfies
0 <= water <= capacity; the next call at now = 500 >= last_leak leaks half a
unit, is admitted, and stores water = 11/2 > capacity. -/
theorem C1_counterexample :
    ((checkRateLimitRun "leaky_bucket" 5 5 [0, 0, 0, 0, 0] BucketState.empty).1.lb.water
        = some 5) ∧
    ((checkRateLimitRun "leaky_bucket" 5 5 [0, 0, 0, 0, 0] BucketState.empty).1.lb.last_leak
        = some 0) ∧
    ((checkRateLimitRun "leaky_bucket" 5 5 [0, 0, 0, 0, 0, 500] BucketState.empty).1.lb.water
        = some (11 / 2)) ∧
    ¬ ((11 : ℚ) / 2 ≤ 5) := by
  have hsix := checkRateLimitRun_append "leaky_bucket" 5 5 [0, 0, 0, 0, 0] [500]
    BucketState.empty
  refine ⟨by rw [leakyTrace_five], by rw [leakyTrace_five], ?_, by norm_num⟩
  rw [show ([0, 0, 0, 0, 0, 500] : List ℤ) = [0, 0, 0, 0, 0] ++ [500] from rfl] at *
  rw [hsix, leakyTrace_five]
  simp [checkRateLimitRun, leakyTrace_overflow]

/-! Dispatch equations of the facade, one per known strategy string. -/

theorem checkRateLimit_token (limit windowSeconds now : ℤ) (st : BucketState) :
    checkRateLimit "token_bucket" limit windowSeconds now st =
      (Except.ok (tokenBucketStep (limit : ℚ) (windowSeconds : ℚ) now st.tb).2,
       { st with tb := some (tokenBucketStep (limit : ℚ) (windowSeconds : ℚ) now st.tb).1 },
       ["tokenBucket"]) := rfl

theorem checkRateLimit_sliding (limit windowSeconds now : ℤ) (st : BucketState) :
    checkRateLimit "sliding_window" limit windowSeconds now st =
      (Except.ok (slidingWindowStep limit (now - windowSeconds * 1000) now
          (windowSeconds * 1000) st.sw).2,
       { st with sw := (slidingWindowStep limit (now - windowSeconds * 1000) now
          (windowSeconds * 1000) st.sw).1 },
       ["slidingWindow"]) := rfl

theorem checkRateLimit_leaky (limit windowSeconds now : ℤ) (st : BucketState) :
    checkRateLimit "leaky_bucket" limit windowSeconds now st =
      (Except.ok (leakyBucketStep (limit : ℚ) ((limit : ℚ) / (windowSeconds : ℚ)) now st.lb).2,
       { st with lb := (leakyBucketStep (limit : ℚ) ((limit : ℚ) / (windowSeconds : ℚ)) now st.lb).1 },
       ["leakyBucket"]) := rfl

theorem slidingWindow_remaining_nonneg (limit window_start now window_ms : ℤ) (S : Finset ℤ) :
    0 ≤ (slidingWindowStep limit window_start now window_ms S).2.remaining := by
  simp only [slidingWindowStep]
  split_ifs <;> exact le_max_left 0 _

/-- C2 (amended): for every key, every positive limit and windowSeconds, and
every stored state whose fields satisfy the reachable-state bounds, the
remaining field of an envelope returned by checkRateLimit is nonnegative for
the token_bucket and sliding_window strategies, and at least -1 for the
leaky_bucket strategy.  The original claim of nonnegativity for all three
strategies fails for leaky_bucket, see the counterexample. -/
theorem C2_remaining_bounds (strategy : String) (limit windowSeconds now : ℤ)
    (st : BucketState) (env : Envelope)
    (hl : 0 < limit) (hw : 0 < windowSeconds)
    (htb : ∀ b, st.tb = some b → 0 ≤ b.tokens ∧ b.last_refill ≤ now)
    (hlb0 : 0 ≤ st.lb.water.getD 0)
    (hlb1 : st.lb.water.getD 0 < (limit : ℚ) + 1)
    (hlb2 : st.lb.last_leak.getD now ≤ now)
    (henv : (checkRateLimit strategy limit windowSeconds now st).1 = Except.ok env) :
    (strategy ≠ "leaky_bucket" → 0 ≤ env.remaining) ∧ -1 ≤ env.remaining := by
  have hlq : (0 : ℚ) < (limit : ℚ) := by exact_mod_cast hl
  have hwq : (0 : ℚ) < (windowSeconds : ℚ) := by exact_mod_cast hw
  by_cases h1 : strategy = "token_bucket"
  · subst h1
    rw [checkRateLimit_token] at henv
    simp only [Except.ok.injEq] at henv
    have h0 := tokenBucket_stored_nonneg (limit : ℚ) (windowSeconds : ℚ) now st.tb
      hlq.le hwq.le htb
    have hrem := tokenBucket_remaining_eq (limit : ℚ) (windowSeconds : ℚ) now st.tb
    have : 0 ≤ env.remaining := by
      rw [← henv, hrem]
      exact Int.floor_nonneg.mpr h0
    exact ⟨fun _ => this, by linarith⟩
  by_cases h2 : strategy = "sliding_window"
  · subst h2
    rw [checkRateLimit_sliding] at henv
    simp only [Except.ok.injEq] at henv
    have : 0 ≤ env.remaining := by
      rw [← henv]
      exact slidingWindow_remaining_nonneg _ _ _ _ _
    exact ⟨fun _ => this, by linarith⟩
  by_cases h3 : strategy = "leaky_bucket"
  · subst h3
    rw [checkRateLimit_leaky] at henv
    simp only [Except.ok.injEq] at henv
    have hlrq : (0 : ℚ) ≤ (limit : ℚ) / (windowSeconds : ℚ) := div_nonneg hlq.le hwq.le
    have hlt := leakyBucket_water_lt (limit : ℚ) ((limit : ℚ) / (windowSeconds : ℚ)) now st.lb
      hlrq hlb2 hlb0 hlb1
    have hrem := leakyBucket_remaining_eq (limit : ℚ) ((limit : ℚ) / (windowSeconds : ℚ)) now st.lb
    have : -1 ≤ env.remaining := by
      rw [← henv, hrem]
      apply Int.le_floor.mpr
      push_cast
      linarith
    exact ⟨fun habs => absurd rfl habs, this⟩
  · rw [checkRateLimit] at henv
    simp only [if_neg h1, if_neg h2, if_neg h3] at henv
    cases henv

/-- Witness for C2_remaining_bounds: a fresh token bucket with limit 10,
window 10 at now = 0 answers remaining = 9. -/
theorem C2_remaining_bounds_witness :
    ("token_bucket" ≠ "leaky_bucket" → 0 ≤ (Envelope.mk true 9 10000).remaining) ∧
      -1 ≤ (Envelope.mk true 9 10000).remaining :=
  C2_remaining_bounds "token_bucket" 10 10 0 BucketState.empty ⟨true, 9, 10000⟩
    (by norm_num) (by norm_num)
    (by intro b hb; simp [BucketState.empty] at hb)
    (by norm_num : (0 : ℚ) ≤ 0) (by norm_num : (0 : ℚ) < (10 : ℤ) + 1)
    (by norm_num : (0 : ℤ) ≤ 0)
    (by rw [checkRateLimit_token]; norm_num [tokenBucketStep, tbRefill, BucketState.empty])

/-- Counterexample to C2 as stated: on the leaky-bucket strategy with
limit = 5 and windowSeconds = 5, the six facade calls at
t = 0, 0, 0, 0, 0, 500 starting from an empty key are all admitted and the
sixth returns remaining = -1 < 0. -/
theorem C2_counterexample :
    (checkRateLimitRun "leaky_bucket" 5 5 [0, 0, 0, 0, 0, 500] BucketState.empty).2 =
      [Except.ok ⟨true, 4, 1000⟩, Except.ok ⟨true, 3, 2000⟩, Except.ok ⟨true, 2, 3000⟩,
       Except.ok ⟨true, 1, 4000⟩, Except.ok ⟨true, 0, 5000⟩, Except.ok ⟨true, -1, 6000⟩] ∧
    ¬ (0 ≤ (-1 : ℤ)) := by
  constructor
  · rw [show ([0, 0, 0, 0, 0, 500] : List ℤ) = [0, 0, 0, 0, 0] ++ [500] from rfl,
      checkRateLimitRun_append, leakyTrace_five]
    simp [checkRateLimitRun, leakyTrace_overflow]
  · norm_num

/-- Token-bucket step exactly as the specification words it (section 4.3.1,
steps 2-5, existing record): compute elapsedMs = now - last_refill and
tokensToAdd = floor(elapsedMs / 1000) * (limit / windowSeconds); set
tokens = min(limit, tokens + tokensToAdd) and last_refill = now; allow
exactly when tokens >= 1, decrementing by one; reply
(allowed, floor(tokens), last_refill + windowSeconds * 1000).  Written from
the spec text, to be compared with tokenBucketStep, which is written from
the Lua source. -/
def tokenBucketSpecStep (limit windowSeconds : ℚ) (now : ℤ) (tokens : ℚ)
    (last_refill : ℤ) : TBState × Envelope :=
  let elapsedMs : ℤ := now - last_refill
  let tokensToAdd : ℚ := (⌊(elapsedMs : ℚ) / 1000⌋ : ℚ) * (limit / windowSeconds)
  let refilled : ℚ := min limit (tokens + tokensToAdd)
  if 1 ≤ refilled then
    (⟨refilled - 1, now⟩, ⟨true, ⌊refilled - 1⌋, (now : ℚ) + windowSeconds * 1000⟩)
  else
    (⟨refilled, now⟩, ⟨false, ⌊refilled⌋, (now : ℚ) + windowSeconds * 1000⟩)

/-- C3: on an existing record, the token-bucket script computes exactly the
spec formula (refill by floor(elapsedMs / 1000) * (limit / windowSeconds)
capped at limit, last_refill set to now even when the refill quantity is
zero, admission exactly when the refilled tokens reach one), and the concrete
scenario with limit = 10 and windowSeconds = 10 behaves as stated: ten calls
at t = 0 all allowed, a call at t = 500 denied with remaining 0, a call at
t = 1500 allowed with remaining 0. -/
theorem C3_token_bucket_step :
    (∀ (limit windowSeconds : ℚ) (now : ℤ) (tokens : ℚ) (last_refill : ℤ),
        0 < limit → 0 < windowSeconds → last_refill ≤ now →
        tokenBucketStep limit windowSeconds now (some ⟨tokens, last_refill⟩) =
          tokenBucketSpecStep limit windowSeconds now tokens last_refill ∧
        (tokenBucketStep limit windowSeconds now (some ⟨tokens, last_refill⟩)).1.last_refill
          = now)
  ∧ (tokenBucketRun 10 10 [0, 0, 0, 0, 0, 0, 0, 0, 0, 0, 500, 1500] none).2 =
      [⟨true, 9, 10000⟩, ⟨true, 8, 10000⟩, ⟨true, 7, 10000⟩, ⟨true, 6, 10000⟩,
       ⟨true, 5, 10000⟩, ⟨true, 4, 10000⟩, ⟨true, 3, 10000⟩, ⟨true, 2, 10000⟩,
       ⟨true, 1, 10000⟩, ⟨true, 0, 10000⟩, ⟨false, 0, 10500⟩, ⟨true, 0, 11500⟩] := by
  constructor
  · intro limit windowSeconds now tokens last_refill _ _ _
    constructor
    · rfl
    · simp only [tokenBucketStep]
      split_ifs <;> rfl
  · have t0 : tokenBucketStep 10 10 0 none = (⟨9, 0⟩, ⟨true, 9, 10000⟩) := by
      norm_num [tokenBucketStep, tbRefill]
    have t1 : tokenBucketStep 10 10 0 (some ⟨9, 0⟩) = (⟨8, 0⟩, ⟨true, 8, 10000⟩) := by
      norm_num [tokenBucketStep, tbRefill]
    have t2 : tokenBucketStep 10 10 0 (some ⟨8, 0⟩) = (⟨7, 0⟩, ⟨true, 7, 10000⟩) := by
      norm_num [tokenBucketStep, tbRefill]
    have t3 : tokenBucketStep 10 10 0 (some ⟨7, 0⟩) = (⟨6, 0⟩, ⟨true, 6, 10000⟩) := by
      norm_num [tokenBucketStep, tbRefill]
    have t4 : tokenBucketStep 10 10 0 (some ⟨6, 0⟩) = (⟨5, 0⟩, ⟨true, 5, 10000⟩) := by
      norm_num [tokenBucketStep, tbRefill]
    have t5 : tokenBucketStep 10 10 0 (some ⟨5, 0⟩) = (⟨4, 0⟩, ⟨true, 4, 10000⟩) := by
      norm_num [tokenBucketStep, tbRefill]
    have t6 : tokenBucketStep 10 10 0 (some ⟨4, 0⟩) = (⟨3, 0⟩, ⟨true, 3, 10000⟩) := by
      norm_num [tokenBucketStep, tbRefill]
    have t7 : tokenBucketStep 10 10 0 (some ⟨3, 0⟩) = (⟨2, 0⟩, ⟨true, 2, 10000⟩) := by
      norm_num [tokenBucketStep, tbRefill]
    have t8 : tokenBucketStep 10 10 0 (some ⟨2, 0⟩) = (⟨1, 0⟩, ⟨true, 1, 10000⟩) := by
      norm_num [tokenBucketStep, tbRefill]
    have t9 : tokenBucketStep 10 10 0 (some ⟨1, 0⟩) = (⟨0, 0⟩, ⟨true, 0, 10000⟩) := by
      norm_num [tokenBucketStep, tbRefill]
    have t10 : tokenBucketStep 10 10 500 (some ⟨0, 0⟩) = (⟨0, 500⟩, ⟨false, 0, 10500⟩) := by
      norm_num [tokenBucketStep, tbRefill]
    have t11 : tokenBucketStep 10 10 1500 (some ⟨0, 500⟩) = (⟨0, 1500⟩, ⟨true, 0, 11500⟩) := by
      norm_num [tokenBucketStep, tbRefill]
    simp [tokenBucketRun, t0, t1, t2, t3, t4, t5, t6, t7, t8, t9, t10, t11]

/-- Witness for C3_token_bucket_step at a concrete refill call. -/
theorem C3_token_bucket_step_witness :
    (tokenBucketStep 10 10 500 (some ⟨3, 0⟩) = tokenBucketSpecStep 10 10 500 3 0 ∧
     (tokenBucketStep 10 10 500 (some ⟨3, 0⟩)).1.last_refill = 500) :=
  C3_token_bucket_step.1 10 10 500 3 0 (by norm_num) (by norm_num) (by norm_num)

/-- C4: whenever exponentialBackoff is set, the incremented counter exceeds
max, and the re-arm branch does not apply, the fixed-window script arms the
TTL to min(timeWindow * 2 ^ (current - max - 1), 2 ^ 53 - 1) milliseconds and
returns that value as timeWindow; concretely, with max = 1, exponential
backoff and base window 1000 ms, four successive calls reply
(1, 1000), (2, 1000), (3, 2000), (4, 4000). -/
theorem C4_exponential_backoff :
    (∀ (timeWindow max : ℤ) (continueExceeding exponentialBackoff : Bool) (st : FWState),
        exponentialBackoff = true →
        (st.count : ℤ) + 1 > max →
        ¬ ((st.count : ℤ) + 1 = 1 ∨ (continueExceeding = true ∧ (st.count : ℤ) + 1 > max)) →
        (rateLimitStep timeWindow max continueExceeding exponentialBackoff st).1.pttl =
          min (timeWindow * 2 ^ ((st.count : ℤ) + 1 - max - 1).toNat) MAX_SAFE_INTEGER ∧
        (rateLimitStep timeWindow max continueExceeding exponentialBackoff st).2.2 =
          min (timeWindow * 2 ^ ((st.count : ℤ) + 1 - max - 1).toNat) MAX_SAFE_INTEGER)
  ∧ (rateLimitRun 1000 1 false true 4 ⟨0, 0⟩).2 =
      [(1, 1000), (2, 1000), (3, 2000), (4, 4000)] := by
  constructor
  · intro timeWindow max cE eB st heB hover hnot
    subst heB
    simp only [rateLimitStep]
    rw [if_neg hnot, if_pos ⟨by trivial, hover⟩]
    exact ⟨rfl, rfl⟩
  · decide

/-- Witness for the general half of C4_exponential_backoff: third call of the
scenario, counter going from 2 to 3 with max = 1. -/
theorem C4_exponential_backoff_witness :
    (rateLimitStep 1000 1 false true ⟨2, 1000⟩).1.pttl =
        min (1000 * 2 ^ ((((2 : ℕ) : ℤ) + 1 - 1 - 1).toNat)) MAX_SAFE_INTEGER ∧
    (rateLimitStep 1000 1 false true ⟨2, 1000⟩).2.2 =
        min (1000 * 2 ^ ((((2 : ℕ) : ℤ) + 1 - 1 - 1).toNat)) MAX_SAFE_INTEGER :=
  C4_exponential_backoff.1 1000 1 false true ⟨2, 1000⟩ rfl (by decide) (by decide)

/-- C9: when continueExceeding and exponentialBackoff are both set and the
incremented counter exceeds max, the first branch wins: the TTL is re-armed
to the base timeWindow, not the exponentially scaled value, and the base
value is returned. -/
theorem C9_continueExceeding_precedence (timeWindow max : ℤ) (st : FWState)
    (hover : (st.count : ℤ) + 1 > max) :
    rateLimitStep timeWindow max true true st =
      (⟨st.count + 1, timeWindow⟩, ((st.count : ℤ) + 1, timeWindow)) := by
  simp only [rateLimitStep]
  rw [if_pos (Or.inr ⟨by trivial, hover⟩)]

/-- Witness for C9_continueExceeding_precedence: sixth call with max = 2 and
base window 60000. -/
theorem C9_continueExceeding_precedence_witness :
    rateLimitStep 60000 2 true true ⟨5, 1234⟩ = (⟨6, 60000⟩, (6, 60000)) :=
  C9_continueExceeding_precedence 60000 2 ⟨5, 1234⟩ (by decide)

theorem lookup_cons_self {β : Type} (k : String) (v : β) (l : List (String × β)) :
    ((k, v) :: l).lookup k = some v := by
  simp [List.lookup]

theorem reloadAndRetry_eval (digestOf : String → String) (exec : String → Except String ℤ)
    (src name firstSha : String) (rs : RunnerState) (store : ScriptStore) :
    reloadAndRetry digestOf exec src name firstSha rs store =
      (embedExec (exec src), ⟨(name, digestOf src) :: rs.scriptShas⟩,
       ⟨(digestOf src, src) :: store.cache⟩,
       [StoreOp.evalsha firstSha, StoreOp.scriptLoad src, StoreOp.evalsha (digestOf src)]) := by
  have h : storeEvalsha exec ⟨(digestOf src, src) :: store.cache⟩ (digestOf src) =
      (match exec src with
       | Except.ok v => EvalOutcome.ok v
       | Except.error m => EvalOutcome.err m) := by
    simp only [storeEvalsha, lookup_cons_self]
  simp only [reloadAndRetry, h]
  cases exec src <;> rfl

/-- C5: the script runner evaluates by digest when one is cached, recovers
from the NOSCRIPT condition with one SCRIPT LOAD and exactly one retry by
digest, evaluates the full source directly when no digest is cached, never
surfaces the NOSCRIPT condition, and surfaces every other execution outcome
unchanged: in all cases the observed result is exactly the embedded outcome
of executing the registered source.  The coherence hypothesis states that a
digest cached for the name resolves in the store, if at all, to the
registered source, which holds because the digest table is populated only
from SCRIPT LOAD replies for that source. -/
theorem C5_script_runner (digestOf : String → String) (exec : String → Except String ℤ)
    (sources : List (String × String)) (rs : RunnerState) (store : ScriptStore)
    (name src : String)
    (hsrc : sources.lookup name = some src)
    (hcoh : ∀ sha s2, rs.scriptShas.lookup name = some sha →
        store.cache.lookup sha = some s2 → s2 = src) :
    ((evalWithFallback digestOf exec sources rs store name).1 = embedExec (exec src)) ∧
    ((evalWithFallback digestOf exec sources rs store name).1 ≠ RunResult.noscriptRes) ∧
    (rs.scriptShas.lookup name = none →
      (evalWithFallback digestOf exec sources rs store name).2.2.2 = [StoreOp.evalFull src]) ∧
    (∀ sha, rs.scriptShas.lookup name = some sha → store.cache.lookup sha = none →
      (evalWithFallback digestOf exec sources rs store name).2.2.2 =
        [StoreOp.evalsha sha, StoreOp.scriptLoad src, StoreOp.evalsha (digestOf src)]) ∧
    (∀ sha v, rs.scriptShas.lookup name = some sha → store.cache.lookup sha = some src →
      exec src = Except.ok v →
      (evalWithFallback digestOf exec sources rs store name).2.2.2 = [StoreOp.evalsha sha]) := by
  have hnever : ∀ e : Except String ℤ, embedExec e ≠ RunResult.noscriptRes := by
    intro e
    cases e <;> simp [embedExec]
  rcases hsha : rs.scriptShas.lookup name with _ | sha
  · -- no cached digest: direct eval of the full source
    have heval : evalWithFallback digestOf exec sources rs store name =
        (embedExec (exec src), rs, ⟨(digestOf src, src) :: store.cache⟩,
         [StoreOp.evalFull src]) := by
      simp only [evalWithFallback, hsha, hsrc]
    rw [heval]
    refine ⟨rfl, hnever _, fun _ => rfl, ?_, ?_⟩
    · intro sha2 h1 h2
      exact Option.noConfusion h1
    · intro sha2 v h1 h2 h3
      exact Option.noConfusion h1
  · rcases hc : store.cache.lookup sha with _ | s2
    · -- digest cached but flushed from the store: NOSCRIPT, reload, one retry
      have he : storeEvalsha exec store sha = EvalOutcome.noscript := by
        simp only [storeEvalsha, hc]
      have heval : evalWithFallback digestOf exec sources rs store name =
          (embedExec (exec src), ⟨(name, digestOf src) :: rs.scriptShas⟩,
           ⟨(digestOf src, src) :: store.cache⟩,
           [StoreOp.evalsha sha, StoreOp.scriptLoad src, StoreOp.evalsha (digestOf src)]) := by
        simp only [evalWithFallback, hsha, he, hsrc, reloadAndRetry_eval]
      rw [heval]
      refine ⟨rfl, hnever _, ?_, ?_, ?_⟩
      · intro h
        exact Option.noConfusion h
      · intro sha2 h1 h2
        simp only [Option.some.injEq] at h1
        subst h1
        rfl
      · intro sha2 v h1 h2 h3
        simp only [Option.some.injEq] at h1
        subst h1
        simp [hc] at h2
    · -- digest cached and present in the store
      have hs2 : src = s2 := (hcoh sha s2 hsha hc).symm
      subst hs2
      rcases hexec : exec src with m | v
      · -- execution errors with message m
        have he : storeEvalsha exec store sha = EvalOutcome.err m := by
          simp only [storeEvalsha, hc, hexec]
        by_cases hm : containsNOSCRIPT m
        · -- the message happens to contain NOSCRIPT: recovery path, same error
          have heval : evalWithFallback digestOf exec sources rs store name =
              (RunResult.storeErr m, ⟨(name, digestOf src) :: rs.scriptShas⟩,
               ⟨(digestOf src, src) :: store.cache⟩,
               [StoreOp.evalsha sha, StoreOp.scriptLoad src,
                StoreOp.evalsha (digestOf src)]) := by
            simp only [evalWithFallback, hsha, he, if_pos hm, hsrc, reloadAndRetry_eval,
              hexec, embedExec]
          rw [heval]
          refine ⟨rfl, by simp, ?_, ?_, ?_⟩
          · intro h
            exact Option.noConfusion h
          · intro sha2 h1 h2
            simp only [Option.some.injEq] at h1
            subst h1
            simp [hc] at h2
          · intro sha2 v h1 h2 h3
            exact Except.noConfusion h3
        · -- every other error is surfaced unchanged
          have heval : evalWithFallback digestOf exec sources rs store name =
              (RunResult.storeErr m, rs, store, [StoreOp.evalsha sha]) := by
            simp only [evalWithFallback, hsha, he, if_neg hm]
          rw [heval]
          refine ⟨rfl, by simp, ?_, ?_, ?_⟩
          · intro h
            exact Option.noConfusion h
          · intro sha2 h1 h2
            simp only [Option.some.injEq] at h1
            subst h1
            simp [hc] at h2
          · intro sha2 v h1 h2 h3
            exact Except.noConfusion h3
      · -- execution succeeds on the first digest evaluation
        have he : storeEvalsha exec store sha = EvalOutcome.ok v := by
          simp only [storeEvalsha, hc, hexec]
        have heval : evalWithFallback digestOf exec sources rs store name =
            (RunResult.ok v, rs, store, [StoreOp.evalsha sha]) := by
          simp only [evalWithFallback, hsha, he]
        rw [heval]
        refine ⟨rfl, by simp, ?_, ?_, ?_⟩
        · intro h
          exact Option.noConfusion h
        · intro sha2 h1 h2
          simp only [Option.some.injEq] at h1
          subst h1
          rw [hc] at h2
          exact Option.noConfusion h2
        · intro sha2 w h1 h2 h3
          simp only [Option.some.injEq] at h1
          subst h1
          rfl

/-- Concrete digest function for the runner witness. -/
def demoDigest (s : String) : String := s ++ "#"

/-- Concrete script execution outcome for the runner witness. -/
def demoExec (s : String) : Except String ℤ := Except.ok (s.length : ℤ)

/-- Witness for C5_script_runner: a cached digest whose store entry was
flushed heals through one reload and one retry. -/
theorem C5_script_runner_witness :
    (evalWithFallback demoDigest demoExec [("tokenBucket", "SRC")]
        ⟨[("tokenBucket", "OLD")]⟩ ⟨[]⟩ "tokenBucket").1 = embedExec (demoExec "SRC") ∧
    (evalWithFallback demoDigest demoExec [("tokenBucket", "SRC")]
        ⟨[("tokenBucket", "OLD")]⟩ ⟨[]⟩ "tokenBucket").2.2.2 =
      [StoreOp.evalsha "OLD", StoreOp.scriptLoad "SRC", StoreOp.evalsha (demoDigest "SRC")] := by
  have h := C5_script_runner demoDigest demoExec [("tokenBucket", "SRC")]
    ⟨[("tokenBucket", "OLD")]⟩ ⟨[]⟩ "tokenBucket" "SRC" (by decide)
    (by intro sha s2 h1 h2; simp [List.lookup] at h2)
  exact ⟨h.1, h.2.2.2.1 "OLD" (by decide) rfl⟩

/-- C6 (amended): checkRateLimit fails with the unknown-strategy error and no
store interaction, leaving the bucket state unchanged, exactly when the
strategy is not one of token_bucket, sliding_window, leaky_bucket.
Non-positive limit or windowSeconds values are not validated; such calls
proceed to the store, see the counterexample. -/
theorem C6_unknown_strategy (strategy : String) (limit windowSeconds now : ℤ)
    (st : BucketState)
    (h1 : strategy ≠ "token_bucket") (h2 : strategy ≠ "sliding_window")
    (h3 : strategy ≠ "leaky_bucket") :
    checkRateLimit strategy limit windowSeconds now st =
      (Except.error ("Unknown strategy: " ++ strategy), st, []) := by
  simp [checkRateLimit, h1, h2, h3]

/-- Witness for C6_unknown_strategy at the strategy string fixed_window. -/
theorem C6_unknown_strategy_witness :
    checkRateLimit "fixed_window" 10 10 0 BucketState.empty =
      (Except.error ("Unknown strategy: " ++ "fixed_window"), BucketState.empty, []) :=
  C6_unknown_strategy "fixed_window" 10 10 0 BucketState.empty
    (by decide) (by decide) (by decide)

/-- Counterexample to C6 as stated: with the valid strategy token_bucket but
non-positive limit = 0 (and windowSeconds = 1), checkRateLimit does not fail
with any error: it invokes the token-bucket script, mutates the stored
bucket, and returns a normal denied envelope. -/
theorem C6_counterexample :
    checkRateLimit "token_bucket" 0 1 0 BucketState.empty =
      (Except.ok ⟨false, 0, 1000⟩, ⟨some ⟨0, 0⟩, ∅, HashRecord.empty⟩, ["tokenBucket"]) := by
  rw [checkRateLimit_token]
  norm_num [tokenBucketStep, tbRefill, BucketState.empty]

/-- C7: on every sliding-window decision, after eviction every remaining
element has score at least now - windowMs (given scores are nonnegative
timestamps and window_start = now - windowMs, as the wrapper computes it); an
element is inserted exactly when the post-eviction cardinality is below
limit; immediately after an admitted insertion the true cardinality is at
most limit; and the reply is (allowed, max 0 (limit - current),
now + windowMs) with current counting the insertion. -/
theorem C7_sliding_window (limit window_start now window_ms : ℤ) (S : Finset ℤ)
    (hpos : ∀ t ∈ S, 0 ≤ t) (hws : window_start = now - window_ms) :
    (∀ t ∈ swEvict window_start S, now - window_ms ≤ t) ∧
    ((slidingWindowStep limit window_start now window_ms S).2.allowed = true ↔
        ((swEvict window_start S).card : ℤ) < limit) ∧
    ((slidingWindowStep limit window_start now window_ms S).2.allowed = true →
        (slidingWindowStep limit window_start now window_ms S).1 =
          insert now (swEvict window_start S) ∧
        (((slidingWindowStep limit window_start now window_ms S).1.card : ℤ) ≤ limit)) ∧
    ((slidingWindowStep limit window_start now window_ms S).2.allowed = false →
        (slidingWindowStep limit window_start now window_ms S).1 = swEvict window_start S) ∧
    ((slidingWindowStep limit window_start now window_ms S).2.remaining =
        if ((swEvict window_start S).card : ℤ) < limit
        then max 0 (limit - (((swEvict window_start S).card : ℤ) + 1))
        else max 0 (limit - ((swEvict window_start S).card : ℤ))) ∧
    ((slidingWindowStep limit window_start now window_ms S).2.resetAt =
        ((now + window_ms : ℤ) : ℚ)) := by
  constructor
  · intro t ht
    rw [swEvict, Finset.mem_filter] at ht
    obtain ⟨htS, hcond⟩ := ht
    have h0 : 0 ≤ t := hpos t htS
    subst hws
    by_contra hlt
    push_neg at hlt
    exact hcond ⟨h0, by omega⟩
  · simp only [slidingWindowStep]
    split_ifs with h
    · refine ⟨by simp [h], fun _ => ⟨rfl, ?_⟩, ?_, rfl, rfl⟩
      · have hc := Finset.card_insert_le now (swEvict window_start S)
        have hc2 : ((insert now (swEvict window_start S)).card : ℤ) ≤
            ((swEvict window_start S).card : ℤ) + 1 := by exact_mod_cast hc
        show ((insert now (swEvict window_start S)).card : ℤ) ≤ limit
        omega
      · intro habs
        cases habs
    · refine ⟨by simp [h], ?_, fun _ => rfl, rfl, rfl⟩
      intro habs
      cases habs

/-- Witness for C7_sliding_window: the spec eviction scenario, limit 3,
window 1000 ms, prior admissions at 0, 200, 400, call at now = 1100. -/
theorem C7_sliding_window_witness :
    (∀ t ∈ swEvict 100 ({0, 200, 400} : Finset ℤ), (1100 : ℤ) - 1000 ≤ t) ∧
    ((slidingWindowStep 3 100 1100 1000 {0, 200, 400}).2.allowed = true ↔
        ((swEvict 100 ({0, 200, 400} : Finset ℤ)).card : ℤ) < 3) ∧
    ((slidingWindowStep 3 100 1100 1000 {0, 200, 400}).2.allowed = true →
        (slidingWindowStep 3 100 1100 1000 {0, 200, 400}).1 =
          insert 1100 (swEvict 100 ({0, 200, 400} : Finset ℤ)) ∧
        (((slidingWindowStep 3 100 1100 1000 {0, 200, 400}).1.card : ℤ) ≤ 3)) ∧
    ((slidingWindowStep 3 100 1100 1000 {0, 200, 400}).2.allowed = false →
        (slidingWindowStep 3 100 1100 1000 {0, 200, 400}).1 =
          swEvict 100 ({0, 200, 400} : Finset ℤ)) ∧
    ((slidingWindowStep 3 100 1100 1000 {0, 200, 400}).2.remaining =
        if ((swEvict 100 ({0, 200, 400} : Finset ℤ)).card : ℤ) < 3
        then max 0 (3 - (((swEvict 100 ({0, 200, 400} : Finset ℤ)).card : ℤ) + 1))
        else max 0 (3 - ((swEvict 100 ({0, 200, 400} : Finset ℤ)).card : ℤ))) ∧
    ((slidingWindowStep 3 100 1100 1000 {0, 200, 400}).2.resetAt =
        (((1100 : ℤ) + 1000 : ℤ) : ℚ)) :=
  C7_sliding_window 3 100 1100 1000 {0, 200, 400} (by decide) (by decide)

/-- C8: getQuotaStatus is total on its reply outcomes: for sliding_window it
reports the ordered-set cardinality twice; for any other strategy it reports
twice the floor of the tokens hash field, an absent field counting as zero;
and any failed store operation yields the zero report, so the accessor never
throws. -/
theorem C8_quota_status (strategy : String) (zcardReply : Except String ℕ)
    (hgetallReply : Except String HashRecord) :
    (∀ n, strategy = "sliding_window" → zcardReply = Except.ok n →
        getQuotaStatus strategy zcardReply hgetallReply = ⟨(n : ℤ), (n : ℤ)⟩) ∧
    (∀ e, strategy = "sliding_window" → zcardReply = Except.error e →
        getQuotaStatus strategy zcardReply hgetallReply = ⟨0, 0⟩) ∧
    (∀ r, strategy ≠ "sliding_window" → hgetallReply = Except.ok r →
        getQuotaStatus strategy zcardReply hgetallReply =
          ⟨⌊r.tokens.getD 0⌋, ⌊r.tokens.getD 0⌋⟩) ∧
    (∀ r, strategy ≠ "sliding_window" → hgetallReply = Except.ok r → r.tokens = none →
        getQuotaStatus strategy zcardReply hgetallReply = ⟨0, 0⟩) ∧
    (∀ e, strategy ≠ "sliding_window" → hgetallReply = Except.error e →
        getQuotaStatus strategy zcardReply hgetallReply = ⟨0, 0⟩) := by
  refine ⟨?_, ?_, ?_, ?_, ?_⟩
  · intro n h1 h2
    subst h1
    subst h2
    simp [getQuotaStatus]
  · intro e h1 h2
    subst h1
    subst h2
    simp [getQuotaStatus]
  · intro r h1 h2
    subst h2
    simp [getQuotaStatus, h1]
  · intro r h1 h2 h3
    subst h2
    simp [getQuotaStatus, h1, h3]
  · intro e h1 h2
    subst h2
    simp [getQuotaStatus, h1]

/-- Witness for C8_quota_status: a token-bucket hash holding tokens = 9/2
reports floor 4 twice. -/
theorem C8_quota_status_witness :
    getQuotaStatus "token_bucket" (Except.ok 7)
        (Except.ok ⟨some (9 / 2), some 0, none, none⟩) = ⟨4, 4⟩ :=
  ((C8_quota_status "token_bucket" (Except.ok 7)
      (Except.ok ⟨some (9 / 2), some 0, none, none⟩)).2.2.1
    ⟨some (9 / 2), some 0, none, none⟩ (by decide) rfl).trans (by norm_num)

theorem leakyBucketStep_tokens (capacity leak_rate : ℚ) (now : ℤ) (r : HashRecord) :
    (leakyBucketStep capacity leak_rate now r).1.tokens = r.tokens := by
  simp only [leakyBucketStep]
  split_ifs <;> rfl

/-- C10: the leaky-bucket script reads and writes only the water and
last_leak hash fields, so the tokens field stays absent along any sequence of
leaky-bucket calls starting from a record without it, and getQuotaStatus on
such a bucket parses the absent tokens field as zero and reports
remaining = 0, total = 0 regardless of the actual occupancy. -/
theorem C10_leaky_quota_zero (capacity leak_rate : ℚ) (calls : List ℤ)
    (r : HashRecord) (hr : r.tokens = none) (zcardReply : Except String ℕ) :
    (leakyBucketRun capacity leak_rate calls r).tokens = none ∧
    getQuotaStatus "leaky_bucket" zcardReply
        (Except.ok (leakyBucketRun capacity leak_rate calls r)) = ⟨0, 0⟩ := by
  have hrun : ∀ (cs : List ℤ) (r2 : HashRecord), r2.tokens = none →
      (leakyBucketRun capacity leak_rate cs r2).tokens = none := by
    intro cs
    induction cs with
    | nil => intro r2 h2; exact h2
    | cons c cs2 ih =>
        intro r2 h2
        show (leakyBucketRun capacity leak_rate cs2
          (leakyBucketStep capacity leak_rate c r2).1).tokens = none
        exact ih _ (by rw [leakyBucketStep_tokens]; exact h2)
  refine ⟨hrun calls r hr, ?_⟩
  simp [getQuotaStatus, (show "leaky_bucket" ≠ "sliding_window" by decide), hrun calls r hr]

/-- Witness for C10_leaky_quota_zero: two leaky-bucket calls from an empty
record leave the tokens field absent and the quota report at zero, although
the bucket holds two units of water. -/
theorem C10_leaky_quota_zero_witness :
    (leakyBucketRun 5 1 [0, 0] HashRecord.empty).tokens = none ∧
    getQuotaStatus "leaky_bucket" (Except.ok 3)
        (Except.ok (leakyBucketRun 5 1 [0, 0] HashRecord.empty)) = ⟨0, 0⟩ :=
  C10_leaky_quota_zero 5 1 [0, 0] HashRecord.empty rfl (Except.ok 3)

end RateLimiter
